import Mathlib

/-!
Shallow embedding of the SafeBridge geometry-correlation pipeline
(`src/safebridge/pipeline.py`, `src/safebridge/database.py`) and proofs of
the specification's claims about it.

Conventions used throughout:

* Geometry handled through the spatial engine is idealised over the reals:
  a point is `ℝ × ℝ` (x = easting, y = northing) and a linestring is its
  vertex list.  `ST_StartPoint`, `ST_Reverse`, `ST_Centroid` are modelled
  directly; the engine's float arithmetic is idealised as exact real
  arithmetic.
* Relational stages are modelled as functions on lists of rows (row order =
  insertion order; `uid` values come from a monotone per-table sequence, so
  a table's `uid` column is strictly increasing and duplicate-free).
  Spatial join predicates (`ST_Intersects`, `ST_Within`, `ST_Overlaps`) are
  capabilities of the external geometry store, not code of this repository,
  so they appear as boolean-valued parameters.
* `ST_DWithin(a, b, r)` (planar Euclidean distance ≤ r, boundary included)
  is embedded as the comparison of the squared distance with `r ^ 2`, which
  keeps coordinates rational and the test decidable; for `0 ≤ r` the two
  formulations are equivalent.
-/

/-! ### Planar distance primitives (deck_edge_control) -/

/-- Squared planar Euclidean distance between two rational points. -/
def dist2 (p q : ℚ × ℚ) : ℚ := (p.1 - q.1) ^ 2 + (p.2 - q.2) ^ 2

/-- `ST_DWithin(a, b, r)`: distance at most `r` inclusive, embedded through
squared distances (equivalent to the Euclidean formulation for `0 ≤ r`). -/
def stDWithin (a b : ℚ × ℚ) (r : ℚ) : Bool := decide (dist2 a b ≤ r ^ 2)

/-! ### Axis canonicalization (process_axis, pipeline.py 115-126) -/

/-- `ST_Distance` between two points: planar Euclidean length of the segment
joining them. -/
noncomputable def segLen (p q : ℝ × ℝ) : ℝ :=
  Real.sqrt ((q.1 - p.1) ^ 2 + (q.2 - p.2) ^ 2)

/-- The consecutive vertex pairs (the segments) of a linestring. -/
def segsOf : List (ℝ × ℝ) → List ((ℝ × ℝ) × (ℝ × ℝ))
  | a :: b :: rest => (a, b) :: segsOf (b :: rest)
  | _ => []

/-- `ST_StartPoint`: the first vertex of a linestring. -/
def stStartPoint (l : List (ℝ × ℝ)) : ℝ × ℝ := l.headI

/-- `ST_Centroid` of a linestring: the length-weighted average of the segment
midpoints (the GEOS semantics the spatial engine implements). -/
noncomputable def lineCentroid (l : List (ℝ × ℝ)) : ℝ × ℝ :=
  (((segsOf l).map fun s => segLen s.1 s.2 * ((s.1.1 + s.2.1) / 2)).sum /
      ((segsOf l).map fun s => segLen s.1 s.2).sum,
   ((segsOf l).map fun s => segLen s.1 s.2 * ((s.1.2 + s.2.2) / 2)).sum /
      ((segsOf l).map fun s => segLen s.1 s.2).sum)

/-- The `UPDATE ... SET geom = CASE ... END` of `process_axis`
(pipeline.py 119-126): reverse the axis when the start point is strictly
north of the centroid, or level with it and strictly east of it. -/
noncomputable def processAxisGeom (l : List (ℝ × ℝ)) : List (ℝ × ℝ) :=
  if (stStartPoint l).2 > (lineCentroid l).2 then l.reverse
  else if (stStartPoint l).2 = (lineCentroid l).2 ∧ (stStartPoint l).1 > (lineCentroid l).1 then
    l.reverse
  else l

/-- Claim-side reversal condition of C2: start strictly north of the
centroid, or level with it and strictly east of it. -/
def axisRevCond (l : List (ℝ × ℝ)) : Prop :=
  (stStartPoint l).2 > (lineCentroid l).2 ∨
    ((stStartPoint l).2 = (lineCentroid l).2 ∧ (stStartPoint l).1 > (lineCentroid l).1)

/-! ### Azimuth and orientation (process_axis line 134, relate_deck_axis 221-228) -/

/-- Two-argument arctangent with range `(-π, π]`, as the SQL `atan2`. -/
noncomputable def atan2R (y x : ℝ) : ℝ := Complex.arg (x + y * Complex.I)

/-- Truncation toward zero, the rounding C `fmod` (the engine's float `%`)
performs on the quotient. -/
noncomputable def truncR (x : ℝ) : ℤ := if 0 ≤ x then ⌊x⌋ else ⌈x⌉

/-- The SQL float `%` operator, i.e. C `fmod`: remainder with the sign of
the dividend. -/
noncomputable def fmodR (x y : ℝ) : ℝ := x - y * (truncR (x / y) : ℝ)

/-- SQL `degrees`: radians to degrees. -/
noncomputable def degreesR (x : ℝ) : ℝ := x * 180 / Real.pi

/-- The azimuth of `process_axis` (pipeline.py line 134):
`degrees(2*pi() + pi()/2 - atan2(dy, dx) % (2*pi())) % 360` — `%` binds
tighter than binary `-`, so the inner remainder applies to the `atan2`
value alone. -/
noncomputable def azimuthOf (dy dx : ℝ) : ℝ :=
  fmodR (degreesR (2 * Real.pi + Real.pi / 2 - fmodR (atan2R dy dx) (2 * Real.pi))) 360

/-- The orientation `CASE` of `relate_deck_axis` (pipeline.py 221-228). -/
noncomputable def orientationOf (az : ℝ) : String :=
  if (az ≥ 0 ∧ az ≤ 45) ∨ (az ≥ 315 ∧ az ≤ 360) ∨ (az ≥ 135 ∧ az ≤ 225) then "NS" else "EW"

/-! ### Sector creation (create_sectors, pipeline.py 254-289) -/

/-- Modelled from the spec: the polygon-splitting chain of `gis_ops`
(`extract_intersecting_edges`, `extend_line`, `sort_by_centroid`,
`move_lines_to_points`, `multisplit`), whose source is not among this
repository's files.  Per §4.5 of the spec, splitting a deck's buffer by the
two translated cutting lines yields exactly three polygon pieces in a
stable, direction-consistent order: first the piece adjacent to the
`finish` side, then the middle piece, then the piece adjacent to the
`start` side. -/
structure SplitPieces (G : Type) where
  nearFinish : G
  middle : G
  nearStart : G
  deriving DecidableEq

/-- One row of the query `create_sectors` fetches from the processed deck
table (pipeline.py 259-270): uid, deck geometry, buffer, buffer edge, and
the two anchor centroids. -/
structure DeckSectorSrc (G : Type) where
  uid : Int
  geom : G
  buffer : G
  buffer_edge : G
  startAnchor : G
  finishAnchor : G
  deriving DecidableEq

/-- One row of the `sectors` table as inserted by `create_sectors`
(pipeline.py line 289).  The sequence-assigned sector uid is not referenced
by claim C1 and is omitted. -/
structure SectorRow (G : Type) where
  geom : G
  sector_tag : String
  rdeck : Int
  deriving DecidableEq

/-- The insertion loop of `create_sectors` (pipeline.py 280-289): for each
fetched deck row, split its buffer and insert the three pieces with tags
`sector_tags = ["N", "C", "S"]` taken by position over the split result. -/
def createSectors {G : Type} (split : DeckSectorSrc G → SplitPieces G) :
    List (DeckSectorSrc G) → List (SectorRow G)
  | [] => []
  | d :: rest =>
    ⟨(split d).nearFinish, "N", d.uid⟩ :: ⟨(split d).middle, "C", d.uid⟩ ::
      ⟨(split d).nearStart, "S", d.uid⟩ :: createSectors split rest

/-! ### Edge coverage (deck_edge_control, pipeline.py 410-439) -/

/-- A surviving scatter-point row as `deck_edge_control` reads it: its deck
back-reference and its projection onto the axis. -/
structure ProjPt where
  rdeck : Int
  proj_axis : ℚ × ℚ
  deriving DecidableEq

/-- A surviving deck row as `deck_edge_control` reads and updates it: the
two endpoints of `deck_edge` and the `edge_check` column it fills. -/
structure DeckEC where
  uid : Int
  edgeStart : ℚ × ℚ
  edgeEnd : ℚ × ℚ
  edge_check : Option Bool
  deriving DecidableEq

/-- The `UPDATE` of `deck_edge_control` (pipeline.py 420-438): for every
deck row, `edge_check` becomes the conjunction of the two `EXISTS`
subqueries (ascending points near the edge start, descending points near
the edge end, radius `buffer_distance / 2`). -/
def deckEdgeControl (bufferDistance : ℚ) (ascPts descPts : List ProjPt)
    (decks : List DeckEC) : List DeckEC :=
  decks.map fun d =>
    { d with
      edge_check := some
        ((ascPts.any fun p => p.rdeck == d.uid &&
            stDWithin d.edgeStart p.proj_axis (bufferDistance / 2)) &&
          (descPts.any fun p => p.rdeck == d.uid &&
            stDWithin d.edgeEnd p.proj_axis (bufferDistance / 2))) }

/-! ### Bridge selection (get_ns_bridge_uid 465-490, get_ew_bridge_uid 492-525) -/

/-- A deck row as the selectors read it. -/
structure DeckSel where
  uid : Int
  orientation : String
  edge_check : Bool
  deriving DecidableEq

/-- A surviving scatter-point row as the selectors read it. -/
structure ScatterRel where
  rdeck : Int
  rsector : Int
  deriving DecidableEq

/-- `get_ns_bridge_uid` (pipeline.py 475-490): deck uids with orientation
`NS`, `edge_check` true, and uid among the ascending rdecks that also occur
as a descending rdeck.  The inner query's `GROUP BY`/`ORDER BY` only
canonicalise the `IN`-list, which list containment ignores. -/
def getNsBridgeUid (decks : List DeckSel) (ascPts descPts : List ScatterRel) : List Int :=
  (decks.filter fun d =>
      d.orientation == "NS" && d.edge_check &&
        ((ascPts.filter fun p => descPts.any fun q => q.rdeck == p.rdeck).map
            fun p => p.rdeck).contains d.uid).map fun d => d.uid

/-- A sector row as `get_ew_bridge_uid` joins it (`pa.rsector = s.uid`). -/
structure SectorSel where
  uid : Int
  sector_tag : Char
  deriving DecidableEq

/-- One orbit's `HAVING INSTR(sector_tags, c) > 0` test of
`get_ew_bridge_uid`: some point of deck `u` joins a sector tagged `c`.
`sector_tags` is `GROUP_CONCAT(DISTINCT s.sector_tag)` over single-character
tags, so `INSTR(sector_tags, c) > 0` holds exactly when tag `c` occurs
among the deck's joined sectors. -/
def tagHit (pts : List ScatterRel) (sectors : List SectorSel) (u : Int) (c : Char) : Bool :=
  pts.any fun p => p.rdeck == u && sectors.any fun s => s.uid == p.rsector && s.sector_tag == c

/-- `get_ew_bridge_uid` (pipeline.py 501-525): deck uids with orientation
`EW` whose ascending points cover sector tags `S` and `N` and whose
descending points cover sector tags `S` and `N`. -/
def getEwBridgeUid (decks : List DeckSel) (ascPts descPts : List ScatterRel)
    (sectors : List SectorSel) : List Int :=
  (decks.filter fun d =>
      d.orientation == "EW" &&
        (tagHit ascPts sectors d.uid 'S' && tagHit ascPts sectors d.uid 'N') &&
        (tagHit descPts sectors d.uid 'S' && tagHit descPts sectors d.uid 'N')).map fun d => d.uid

/-- Claim-side view for C7: the list of sector tags associated with deck `u`
through one orbit's points (joined via `rsector`). -/
def orbitTags (pts : List ScatterRel) (sectors : List SectorSel) (u : Int) : List Char :=
  (pts.filter fun p => p.rdeck == u).flatMap fun p =>
    (sectors.filter fun s => s.uid == p.rsector).map fun s => s.sector_tag

/-! ### Pruning stages (process_deck 170-182, relate_deck_axis 201-251,
relate_deck_pspoints 329-364) -/

/-- A processed deck row as the support join reads it. -/
structure DeckGeo (G : Type) where
  uid : Int
  geom : G
  deriving DecidableEq

/-- A support row before `process_deck` adds `rdeck`. -/
structure SupIn (G : Type) where
  uid : Int
  geom : G
  deriving DecidableEq

/-- A support row after `process_deck`: `rdeck` added (NULL when no deck
matched). -/
structure SupOut (G : Type) where
  uid : Int
  geom : G
  rdeck : Option Int
  deriving DecidableEq

/-- The support half of `process_deck` (pipeline.py 170-182): add `rdeck`,
fill it from the intersection join (of several matches the last wins, per
the engine's update order), then delete the rows whose `rdeck` is NULL. -/
def processDeckSupports {G : Type} (isect : G → G → Bool) (decks : List (DeckGeo G))
    (sups : List (SupIn G)) : List (SupOut G) :=
  (sups.map fun s =>
      SupOut.mk s.uid s.geom
        (((decks.filter fun d => isect s.geom d.geom).getLast?).map fun d => d.uid)).filter
    fun s => s.rdeck.isSome

/-- An axis row as `relate_deck_axis` reads it. -/
structure AxisRel (G : Type) where
  uid : Int
  geom : G
  azimuth : ℚ
  deriving DecidableEq

/-- A deck row before `relate_deck_axis` adds its derived columns. -/
structure DeckAxIn (G : Type) where
  uid : Int
  geom : G
  buffer : G
  deriving DecidableEq

/-- A deck row after `relate_deck_axis`: the four added columns, NULL when
no axis matched. -/
structure DeckAxOut (G : Type) where
  uid : Int
  geom : G
  buffer : G
  deck_edge : Option G
  deck_length : Option ℚ
  buffer_edge : Option G
  orientation : Option String
  deriving DecidableEq

/-- The orientation `CASE` of `relate_deck_axis` over the (rational) stored
azimuth column; always yields `NS` or `EW`, never NULL. -/
def orientCase (az : ℚ) : String :=
  if (az ≥ 0 ∧ az ≤ 45) ∨ (az ≥ 315 ∧ az ≤ 360) ∨ (az ≥ 135 ∧ az ≤ 225) then "NS" else "EW"

/-- `relate_deck_axis` (pipeline.py 201-251) on the deck table: add the four
derived columns, fill them together from the axis intersection join, then
delete the rows whose `orientation` is NULL. -/
def relateDeckAxis {G : Type} (isect : G → G → Bool) (inter : G → G → G) (glen : G → ℚ)
    (axes : List (AxisRel G)) (decks : List (DeckAxIn G)) : List (DeckAxOut G) :=
  (decks.map fun d =>
      match (axes.filter fun a => isect d.geom a.geom).getLast? with
      | none => DeckAxOut.mk d.uid d.geom d.buffer none none none none
      | some a =>
        DeckAxOut.mk d.uid d.geom d.buffer (some (inter d.geom a.geom))
          (some (glen (inter d.geom a.geom))) (some (inter d.buffer a.geom))
          (some (orientCase a.azimuth))).filter
    fun d => d.orientation.isSome

/-- A scatter-point row before `relate_deck_pspoints` adds its columns. -/
structure PtIn (G : Type) where
  uid : Int
  geom : G
  deriving DecidableEq

/-- A scatter-point row after `relate_deck_pspoints`: `rdeck` and `rsector`
added, NULL when no sector contained the point. -/
structure PtOut (G : Type) where
  uid : Int
  geom : G
  rdeck : Option Int
  rsector : Option Int
  deriving DecidableEq

/-- A sector row as the point join reads it (`rdeck` is the inserted deck
uid, never NULL). -/
structure SecGeo (G : Type) where
  uid : Int
  geom : G
  rdeck : Int
  deriving DecidableEq

/-- One orbit table's half of `relate_deck_pspoints` (pipeline.py 329-364):
add `rdeck` and `rsector`, fill both together from the `ST_Within` join
against the sectors table, then delete the rows whose `rdeck` is NULL. -/
def relateDeckPoints {G : Type} (pwithin : G → G → Bool) (sectors : List (SecGeo G))
    (pts : List (PtIn G)) : List (PtOut G) :=
  (pts.map fun p =>
      match (sectors.filter fun s => pwithin p.geom s.geom).getLast? with
      | none => PtOut.mk p.uid p.geom none none
      | some s => PtOut.mk p.uid p.geom (some s.rdeck) (some s.uid)).filter
    fun p => p.rdeck.isSome

/-! ### File loading (DataBase.load_file, database.py 80-125) -/

/-- A Python argument as `load_file` validates it: a string, or a value of
some other type (which fails the `isinstance(check, str)` test). -/
inductive PyVal where
  | str (s : String)
  | notStr
  deriving DecidableEq

/-- The exceptions `load_file` raises. -/
inductive LoadErr where
  | valueError
  | fileNotFound
  deriving DecidableEq

/-- The one SQL batch `load_file` executes on success (database.py 120-125):
create-or-replace the table from the loader, recreate its sequence, add the
uid column. -/
inductive SqlEffect where
  | createLoadTable (table : String) (method : String) (file : String)
  deriving DecidableEq

/-- Python `str.isspace()`: non-empty and every character whitespace. -/
def pyIsSpace (s : String) : Bool := !s.isEmpty && s.toList.all fun c => c.isWhitespace

/-- The per-argument validation loop of `load_file` (database.py 101-107):
not a string, empty, or whitespace-only each raise `ValueError`. -/
def checkArg (v : PyVal) : Option LoadErr :=
  match v with
  | PyVal.notStr => some LoadErr.valueError
  | PyVal.str s =>
    if s = "" then some LoadErr.valueError
    else if pyIsSpace s then some LoadErr.valueError
    else none

/-- `load_file` (database.py 100-125): validation, existence check, suffix
dispatch, then the single SQL batch.  The first component is the list of
SQL batches executed; every failure path executes none. -/
def loadFile (fsExists : String → Bool) (sourceFile tableName : PyVal) :
    List SqlEffect × Option LoadErr :=
  match checkArg sourceFile with
  | some e => ([], some e)
  | none =>
    match checkArg tableName with
    | some e => ([], some e)
    | none =>
      match sourceFile, tableName with
      | PyVal.str s, PyVal.str t =>
        if fsExists s then
          if s.endsWith ".csv" then ([SqlEffect.createLoadTable t "read_csv_auto" s], none)
          else if s.endsWith ".shp" then ([SqlEffect.createLoadTable t "ST_Read" s], none)
          else ([], some LoadErr.valueError)
        else ([], some LoadErr.fileNotFound)
      | _, _ => ([], some LoadErr.valueError)

/-- Claim-side view for C9: an argument that fails the validation loop. -/
def invalidArgB : PyVal → Bool
  | PyVal.notStr => true
  | PyVal.str s => decide (s = "") || pyIsSpace s

/-! ### Point-geometry construction (build_point_geometry, pipeline.py 60-81) -/

/-- One orbit's source description and current table schema as
`build_point_geometry` reads it: the configured source file and coordinate
field names, and the table's column list (`get_attributes`). -/
structure OrbitTable where
  source_file : String
  cols : List String
  lat_field : String
  lon_field : String
  deriving DecidableEq

/-- The two orbit tables the loop of `build_point_geometry` visits, in
order. -/
structure OrbitState where
  ascending : OrbitTable
  descending : OrbitTable
  deriving DecidableEq

/-- One iteration of the `build_point_geometry` loop (pipeline.py 70-81):
only CSV-sourced tables are touched; a missing latitude or longitude column
raises `ValueError` (`none`); the `geom` column is added only when absent. -/
def processOrbit (t : OrbitTable) : Option OrbitTable :=
  if t.source_file.endsWith ".csv" then
    if t.lat_field ∉ t.cols ∨ t.lon_field ∉ t.cols then none
    else if "geom" ∉ t.cols then some { t with cols := t.cols ++ ["geom"] }
    else some t
  else some t

/-- `build_point_geometry` (pipeline.py 60-81): process `ascending` then
`descending`; an exception stops the loop, leaving the earlier mutation in
place.  Returns the resulting tables and whether `ValueError` was raised. -/
def buildPointGeometry (s : OrbitState) : OrbitState × Bool :=
  match processOrbit s.ascending with
  | none => (s, true)
  | some a =>
    match processOrbit s.descending with
    | none => ({ s with ascending := a }, true)
    | some d => (OrbitState.mk a d, false)

/-! ### Claim-side predicates -/

/-- Claim-side predicate for C5: some ascending point of the deck projects
within `buffer_distance / 2` of the start of `deck_edge` (squared form). -/
def ascEdgeHit (bufferDistance : ℚ) (ascPts : List ProjPt) (d : DeckEC) : Prop :=
  ∃ p ∈ ascPts, p.rdeck = d.uid ∧ dist2 d.edgeStart p.proj_axis ≤ (bufferDistance / 2) ^ 2

/-- Claim-side predicate for C5: some descending point of the deck projects
within `buffer_distance / 2` of the end of `deck_edge` (squared form). -/
def descEdgeHit (bufferDistance : ℚ) (descPts : List ProjPt) (d : DeckEC) : Prop :=
  ∃ p ∈ descPts, p.rdeck = d.uid ∧ dist2 d.edgeEnd p.proj_axis ≤ (bufferDistance / 2) ^ 2

/-- Claim-side qualification predicate for C6: orientation `NS`,
`edge_check` true, and the uid occurs as the `rdeck` of at least one
surviving ascending point and of at least one surviving descending point. -/
def nsQualifies (ascPts descPts : List ScatterRel) (d : DeckSel) : Prop :=
  d.orientation = "NS" ∧ d.edge_check = true ∧
    (∃ p ∈ ascPts, p.rdeck = d.uid) ∧ (∃ q ∈ descPts, q.rdeck = d.uid)

/-- Claim-side qualification predicate for C7: orientation `EW` and, in each
orbit independently, the deck's sector tags include both `N` and `S`. -/
def ewQualifies (ascPts descPts : List ScatterRel) (sectors : List SectorSel)
    (d : DeckSel) : Prop :=
  d.orientation = "EW" ∧
    ('N' ∈ orbitTags ascPts sectors d.uid ∧ 'S' ∈ orbitTags ascPts sectors d.uid) ∧
    ('N' ∈ orbitTags descPts sectors d.uid ∧ 'S' ∈ orbitTags descPts sectors d.uid)

/-! ## Theorems -/

/-- Claim C5: after `deck_edge_control(buffer_distance)`, a surviving deck
row's `edge_check` is true iff at least one ascending point with the deck's
uid projects within `buffer_distance / 2` (boundary inclusive) of the start
point of `deck_edge` and at least one descending point with that uid
projects within the same radius of its end point; it is false exactly
otherwise, so one qualifying ascending point with zero qualifying
descending points yields `edge_check = false`.  Distances are compared in
squared form, equivalent to the planar Euclidean comparison under
`0 ≤ bufferDistance`. -/
theorem deck_edge_control_spec (bufferDistance : ℚ) (ascPts descPts : List ProjPt)
    (decks : List DeckEC) (_hr : 0 ≤ bufferDistance) (d : DeckEC)
    (hd : d ∈ deckEdgeControl bufferDistance ascPts descPts decks) :
    (d.edge_check = some true ↔
        ascEdgeHit bufferDistance ascPts d ∧ descEdgeHit bufferDistance descPts d) ∧
      (d.edge_check = some false ↔
        ¬ (ascEdgeHit bufferDistance ascPts d ∧ descEdgeHit bufferDistance descPts d)) := by
  obtain ⟨d0, hd0, rfl⟩ := List.mem_map.mp hd
  have h1 : (((ascPts.any fun p => p.rdeck == d0.uid &&
        stDWithin d0.edgeStart p.proj_axis (bufferDistance / 2)) &&
      (descPts.any fun p => p.rdeck == d0.uid &&
        stDWithin d0.edgeEnd p.proj_axis (bufferDistance / 2))) = true) ↔
      (ascEdgeHit bufferDistance ascPts d0 ∧ descEdgeHit bufferDistance descPts d0) := by
    simp [ascEdgeHit, descEdgeHit, stDWithin, List.any_eq_true, Bool.and_eq_true,
      beq_iff_eq, decide_eq_true_eq]
  refine ⟨⟨fun h => h1.mp (Option.some.inj h), fun h => congrArg some (h1.mpr h)⟩,
    ⟨fun h hq => absurd ((Option.some.inj h).symm.trans (h1.mpr hq)) Bool.false_ne_true,
      fun hnq => ?_⟩⟩
  have hb : ((ascPts.any fun p => p.rdeck == d0.uid &&
        stDWithin d0.edgeStart p.proj_axis (bufferDistance / 2)) &&
      (descPts.any fun p => p.rdeck == d0.uid &&
        stDWithin d0.edgeEnd p.proj_axis (bufferDistance / 2))) = false := by
    cases hab : ((ascPts.any fun p => p.rdeck == d0.uid &&
        stDWithin d0.edgeStart p.proj_axis (bufferDistance / 2)) &&
      (descPts.any fun p => p.rdeck == d0.uid &&
        stDWithin d0.edgeEnd p.proj_axis (bufferDistance / 2)))
    · rfl
    · exact absurd (h1.mp hab) hnq
  exact congrArg some hb

/-- Witness for C5 at a concrete instance: one qualifying ascending point,
no descending point, radius 10. -/
theorem deck_edge_control_spec_witness :
    ((DeckEC.mk 7 (0, 0) (100, 0) (some false)).edge_check = some true ↔
        ascEdgeHit 20 [ProjPt.mk 7 (0, 0)] (DeckEC.mk 7 (0, 0) (100, 0) (some false)) ∧
          descEdgeHit 20 [] (DeckEC.mk 7 (0, 0) (100, 0) (some false))) ∧
      ((DeckEC.mk 7 (0, 0) (100, 0) (some false)).edge_check = some false ↔
        ¬ (ascEdgeHit 20 [ProjPt.mk 7 (0, 0)] (DeckEC.mk 7 (0, 0) (100, 0) (some false)) ∧
          descEdgeHit 20 [] (DeckEC.mk 7 (0, 0) (100, 0) (some false)))) :=
  deck_edge_control_spec 20 [ProjPt.mk 7 (0, 0)] [] [DeckEC.mk 7 (0, 0) (100, 0) none]
    (by norm_num) (DeckEC.mk 7 (0, 0) (100, 0) (some false))
    (by simp [deckEdgeControl, stDWithin, dist2])

/-- Claim C6: `get_ns_bridge_uid` returns the ordered (strictly increasing),
deduplicated list of exactly those deck uids with orientation `NS`,
`edge_check` true, and occurring as the `rdeck` of at least one surviving
ascending point and of at least one surviving descending point.  The order
hypothesis is the load-time invariant: deck uids come from a monotone
sequence and deletions preserve row order. -/
theorem get_ns_bridge_uid_spec (decks : List DeckSel) (ascPts descPts : List ScatterRel)
    (huid : (decks.map fun d => d.uid).Pairwise (· < ·)) :
    (getNsBridgeUid decks ascPts descPts).Pairwise (· < ·) ∧
      (getNsBridgeUid decks ascPts descPts).Nodup ∧
      ∀ u : Int, u ∈ getNsBridgeUid decks ascPts descPts ↔
        ∃ d ∈ decks, d.uid = u ∧ nsQualifies ascPts descPts d := by
  have hsub : List.Sublist (getNsBridgeUid decks ascPts descPts) (decks.map fun d => d.uid) :=
    List.Sublist.map _ (List.filter_sublist decks)
  have hpw : (getNsBridgeUid decks ascPts descPts).Pairwise (· < ·) :=
    List.Pairwise.sublist hsub huid
  refine ⟨hpw, hpw.imp ne_of_lt, fun u => ?_⟩
  simp only [getNsBridgeUid, nsQualifies]
  simp
  constructor
  · rintro ⟨a, ⟨ha, ⟨ho, he⟩, p, ⟨hp, q, hq, hqr⟩, hpr⟩, rfl⟩
    exact ⟨a, ha, rfl, ho, he, ⟨p, hp, hpr⟩, ⟨q, hq, hqr.trans hpr⟩⟩
  · rintro ⟨d, hd, rfl, ho, he, ⟨p, hp, hpr⟩, ⟨q, hq, hqr⟩⟩
    exact ⟨d, ⟨hd, ⟨ho, he⟩, p, ⟨hp, q, hq, hqr.trans hpr.symm⟩, hpr⟩, rfl⟩

/-- Witness for C6 at a concrete instance: a qualifying `NS` deck is
returned. -/
theorem get_ns_bridge_uid_spec_witness :
    (1 : Int) ∈ getNsBridgeUid [DeckSel.mk 1 "NS" true]
      [ScatterRel.mk 1 50] [ScatterRel.mk 1 60] := by
  have h := get_ns_bridge_uid_spec [DeckSel.mk 1 "NS" true]
    [ScatterRel.mk 1 50] [ScatterRel.mk 1 60] (by simp)
  exact (h.2.2 1).mpr ⟨DeckSel.mk 1 "NS" true, by simp, rfl, by simp [nsQualifies]⟩

/-- Bridging lemma: one orbit's `HAVING INSTR(...) > 0` test of
`get_ew_bridge_uid` holds exactly when the tag occurs among the sector tags
associated with the deck's points. -/
theorem tagHit_iff (pts : List ScatterRel) (sectors : List SectorSel) (u : Int) (c : Char) :
    tagHit pts sectors u c = true ↔ c ∈ orbitTags pts sectors u := by
  simp [tagHit, orbitTags]
  constructor
  · rintro ⟨p, hp, hpu, s, hs, hsu, hst⟩
    exact ⟨p, ⟨hp, hpu⟩, s, ⟨hs, hsu⟩, hst⟩
  · rintro ⟨p, ⟨hp, hpu⟩, s, ⟨hs, hsu⟩, hst⟩
    exact ⟨p, hp, hpu, s, hs, hsu, hst⟩

/-- Claim C7: `get_ew_bridge_uid` returns the ordered (strictly increasing),
deduplicated list of exactly those deck uids with orientation `EW` whose
ascending points and, independently, descending points cover sector tags
`N` and `S` (via `rsector`); in particular a deck whose ascending points
never fall in sector `S` is excluded regardless of descending coverage. -/
theorem get_ew_bridge_uid_spec (decks : List DeckSel) (ascPts descPts : List ScatterRel)
    (sectors : List SectorSel)
    (huid : (decks.map fun d => d.uid).Pairwise (· < ·)) :
    (getEwBridgeUid decks ascPts descPts sectors).Pairwise (· < ·) ∧
      (getEwBridgeUid decks ascPts descPts sectors).Nodup ∧
      (∀ u : Int, u ∈ getEwBridgeUid decks ascPts descPts sectors ↔
        ∃ d ∈ decks, d.uid = u ∧ ewQualifies ascPts descPts sectors d) ∧
      ∀ u : Int, 'S' ∉ orbitTags ascPts sectors u →
        u ∉ getEwBridgeUid decks ascPts descPts sectors := by
  have hsub : List.Sublist (getEwBridgeUid decks ascPts descPts sectors)
      (decks.map fun d => d.uid) :=
    List.Sublist.map _ (List.filter_sublist decks)
  have hpw : (getEwBridgeUid decks ascPts descPts sectors).Pairwise (· < ·) :=
    List.Pairwise.sublist hsub huid
  have hmem : ∀ u : Int, u ∈ getEwBridgeUid decks ascPts descPts sectors ↔
      ∃ d ∈ decks, d.uid = u ∧ ewQualifies ascPts descPts sectors d := by
    intro u
    simp only [getEwBridgeUid, ewQualifies, List.mem_map, List.mem_filter, Bool.and_eq_true,
      beq_iff_eq, tagHit_iff]
    constructor
    · rintro ⟨d, hcond, rfl⟩
      refine ⟨d, ?_, rfl, ?_⟩ <;> tauto
    · rintro ⟨d, hd, rfl, hq⟩
      refine ⟨d, ?_, rfl⟩
      tauto
  refine ⟨hpw, hpw.imp ne_of_lt, hmem, fun u hS hmem2 => ?_⟩
  obtain ⟨d, _, rfl, _, ⟨_, haS⟩, _⟩ := (hmem u).mp hmem2
  exact hS haS

/-- Witness for C7 at a concrete instance: a qualifying `EW` deck is
returned. -/
theorem get_ew_bridge_uid_spec_witness :
    (2 : Int) ∈ getEwBridgeUid [DeckSel.mk 2 "EW" false]
      [ScatterRel.mk 2 11, ScatterRel.mk 2 12] [ScatterRel.mk 2 11, ScatterRel.mk 2 12]
      [SectorSel.mk 11 'N', SectorSel.mk 12 'S'] := by
  have h := get_ew_bridge_uid_spec [DeckSel.mk 2 "EW" false]
    [ScatterRel.mk 2 11, ScatterRel.mk 2 12] [ScatterRel.mk 2 11, ScatterRel.mk 2 12]
    [SectorSel.mk 11 'N', SectorSel.mk 12 'S'] (by simp)
  exact (h.2.2.1 2).mpr ⟨DeckSel.mk 2 "EW" false, by simp, rfl,
    by simp [ewQualifies, orbitTags]⟩

/-- Helper for C1: decks other than `u` contribute no sector row with
`rdeck = u`. -/
theorem createSectors_filter_not_mem (G : Type) (split : DeckSectorSrc G → SplitPieces G)
    (decks : List (DeckSectorSrc G)) (u : Int) (hu : u ∉ decks.map fun d => d.uid) :
    (createSectors split decks).filter (fun r => r.rdeck == u) = [] := by
  induction decks with
  | nil => rfl
  | cons e rest ih =>
    simp only [List.map_cons, List.mem_cons, not_or] at hu
    obtain ⟨hne, hrest⟩ := hu
    have hbe : (e.uid == u) = false := by simp [Ne.symm hne]
    simp [createSectors, List.filter_cons, hbe, ih hrest]

/-- Claim C1: after `create_sectors`, every deck row of the processed deck
table has exactly three rows in the sectors table referencing it via
`rdeck` — tagged `N`, `C` and `S`, one of each, never a partial triple —
with tags assigned by fixed position over the split result: the first
returned piece (adjacent to the finish side) gets `N`, the second (middle)
gets `C`, the third (adjacent to the start side) gets `S`.  The `Nodup`
hypothesis is the load-time uid-sequence invariant. -/
theorem create_sectors_triple (G : Type) (split : DeckSectorSrc G → SplitPieces G)
    (decks : List (DeckSectorSrc G)) (hnd : (decks.map fun d => d.uid).Nodup)
    (d : DeckSectorSrc G) (hd : d ∈ decks) :
    (createSectors split decks).filter (fun r => r.rdeck == d.uid) =
      [SectorRow.mk (split d).nearFinish "N" d.uid, SectorRow.mk (split d).middle "C" d.uid,
        SectorRow.mk (split d).nearStart "S" d.uid] := by
  induction decks with
  | nil => cases hd
  | cons e rest ih =>
    simp only [List.map_cons, List.nodup_cons] at hnd
    obtain ⟨hnotin, hndr⟩ := hnd
    rcases List.mem_cons.mp hd with rfl | hdr
    · simp [createSectors, List.filter_cons,
        createSectors_filter_not_mem G split rest d.uid hnotin]
    · have hne : (e.uid == d.uid) = false := by
        have hm : d.uid ∈ rest.map fun x => x.uid := List.mem_map.mpr ⟨d, hdr, rfl⟩
        simp only [beq_eq_false_iff_ne, ne_eq]
        intro h
        exact hnotin (h ▸ hm)
      simp [createSectors, List.filter_cons, hne, ih hndr hdr]

/-- Witness for C1 at a concrete instance: one deck, its three tagged
sector rows. -/
theorem create_sectors_triple_witness :
    (createSectors (fun _ => SplitPieces.mk 1 2 3)
        [DeckSectorSrc.mk 10 0 0 0 0 0]).filter (fun r => r.rdeck == (10 : Int)) =
      [SectorRow.mk 1 "N" 10, SectorRow.mk 2 "C" 10, SectorRow.mk 3 "S" 10] :=
  create_sectors_triple ℕ (fun _ => SplitPieces.mk 1 2 3) [DeckSectorSrc.mk 10 0 0 0 0 0]
    (by simp) (DeckSectorSrc.mk 10 0 0 0 0 0) (by simp)

/-- Claim C8: every stage deletes rows that fail to find their required
spatial match rather than leaving a null back-reference — after
`process_deck` every remaining support row has non-null `rdeck`; after
`relate_deck_axis` every remaining deck row has non-null `orientation` and
populated `deck_edge`, `deck_length`, `buffer_edge`; after
`relate_deck_pspoints` every remaining scatter-point row (either orbit) has
non-null `rdeck` and `rsector`. -/
theorem pruning_populates_backrefs (G : Type) :
    (∀ (isect : G → G → Bool) (decks : List (DeckGeo G)) (sups : List (SupIn G)),
        ∀ s ∈ processDeckSupports isect decks sups, s.rdeck.isSome = true) ∧
      (∀ (isect : G → G → Bool) (inter : G → G → G) (glen : G → ℚ)
          (axes : List (AxisRel G)) (decks : List (DeckAxIn G)),
          ∀ d ∈ relateDeckAxis isect inter glen axes decks,
          d.orientation.isSome = true ∧ d.deck_edge.isSome = true ∧
            d.deck_length.isSome = true ∧ d.buffer_edge.isSome = true) ∧
      ∀ (pwithin : G → G → Bool) (sectors : List (SecGeo G)) (pts : List (PtIn G)),
        ∀ p ∈ relateDeckPoints pwithin sectors pts,
        p.rdeck.isSome = true ∧ p.rsector.isSome = true := by
  refine ⟨?_, ?_, ?_⟩
  · intro isect decks sups s hs
    exact (List.mem_filter.mp hs).2
  · intro isect inter glen axes decks d hd
    obtain ⟨hmem, hor⟩ := List.mem_filter.mp hd
    obtain ⟨d0, hd0, hmk⟩ := List.mem_map.mp hmem
    refine ⟨hor, ?_, ?_, ?_⟩ <;>
      rcases hlast : (axes.filter fun a => isect d0.geom a.geom).getLast? with _ | a <;>
        rw [hlast] at hmk <;> subst hmk <;> first
          | rfl
          | (exact absurd hor (by simp))
  · intro pwithin sectors pts p hp
    obtain ⟨hmem, hrd⟩ := List.mem_filter.mp hp
    obtain ⟨p0, hp0, hmk⟩ := List.mem_map.mp hmem
    rcases hlast : (sectors.filter fun s => pwithin p0.geom s.geom).getLast? with _ | s <;>
      rw [hlast] at hmk <;> subst hmk
    · exact absurd hrd (by simp)
    · exact ⟨rfl, rfl⟩

/-- Helper for C9: a failing argument makes the validation loop raise
`ValueError`. -/
theorem checkArg_eq_some (v : PyVal) (h : invalidArgB v = true) :
    checkArg v = some LoadErr.valueError := by
  cases v with
  | notStr => rfl
  | str s =>
    simp only [invalidArgB, Bool.or_eq_true, decide_eq_true_eq] at h
    rcases h with h | h
    · simp [checkArg, h]
    · by_cases he : s = ""
      · simp [checkArg, he]
      · simp [checkArg, he, h]

/-- Helper for C9: a passing argument clears the validation loop. -/
theorem checkArg_eq_none (v : PyVal) (h : invalidArgB v = false) : checkArg v = none := by
  cases v with
  | notStr => simp [invalidArgB] at h
  | str s =>
    simp only [invalidArgB, Bool.or_eq_false_iff, decide_eq_false_iff_not] at h
    simp [checkArg, h.1, h.2]

/-- Claim C9: `load_file` raises `ValueError` when either argument is not a
string, empty, or whitespace-only; otherwise `FileNotFoundError` when the
source file does not exist; otherwise `ValueError` when the file ends with
neither `.csv` nor `.shp` — and in every failure case the list of executed
SQL batches is empty, so no table is created, replaced or altered. -/
theorem load_file_fail_fast (fsExists : String → Bool) (sourceFile tableName : PyVal) :
    ((invalidArgB sourceFile || invalidArgB tableName) = true →
        loadFile fsExists sourceFile tableName = ([], some LoadErr.valueError)) ∧
      ∀ s t : String, invalidArgB (PyVal.str s) = false → invalidArgB (PyVal.str t) = false →
        (fsExists s = false →
            loadFile fsExists (PyVal.str s) (PyVal.str t) = ([], some LoadErr.fileNotFound)) ∧
          (fsExists s = true → s.endsWith ".csv" = false → s.endsWith ".shp" = false →
            loadFile fsExists (PyVal.str s) (PyVal.str t) = ([], some LoadErr.valueError)) := by
  constructor
  · intro h
    cases hsf : invalidArgB sourceFile with
    | true => simp [loadFile, checkArg_eq_some sourceFile hsf]
    | false =>
      have ht : invalidArgB tableName = true := by simpa [hsf] using h
      simp [loadFile, checkArg_eq_none sourceFile hsf, checkArg_eq_some tableName ht]
  · intro s t hs ht
    have h1 := checkArg_eq_none _ hs
    have h2 := checkArg_eq_none _ ht
    constructor
    · intro hf
      simp [loadFile, h1, h2, hf]
    · intro hf hcsv hshp
      simp [loadFile, h1, h2, hf, hcsv, hshp]

/-- Helper for C10: one loop iteration raises `ValueError` exactly for a
CSV-sourced table missing its latitude or longitude column. -/
theorem processOrbit_none_iff (t : OrbitTable) :
    processOrbit t = none ↔
      (t.source_file.endsWith ".csv" = true ∧
        (t.lat_field ∉ t.cols ∨ t.lon_field ∉ t.cols)) := by
  unfold processOrbit
  split_ifs with h1 h2 h3 <;> simp_all

/-- Helper for C10: a successful iteration needs both coordinate columns
when the source is CSV. -/
theorem processOrbit_lat_lon (t u : OrbitTable) (h : processOrbit t = some u) :
    t.source_file.endsWith ".csv" = true →
      t.lat_field ∈ t.cols ∧ t.lon_field ∈ t.cols := by
  intro hcsv
  by_contra hcon
  have hnone : processOrbit t = none := by
    unfold processOrbit
    rw [if_pos hcsv, if_pos (not_and_or.mp hcon)]
  rw [hnone] at h
  cases h

/-- Helper for C10: a successful iteration either leaves the table unchanged
or appends exactly the `geom` column, and appends only for a CSV-sourced
table without one. -/
theorem processOrbit_some_cases (t u : OrbitTable) (h : processOrbit t = some u) :
    u = t ∨ (u = { t with cols := t.cols ++ ["geom"] } ∧
      t.source_file.endsWith ".csv" = true ∧ "geom" ∉ t.cols) := by
  unfold processOrbit at h
  by_cases h1 : t.source_file.endsWith ".csv" = true
  · rw [if_pos h1] at h
    by_cases h2 : t.lat_field ∉ t.cols ∨ t.lon_field ∉ t.cols
    · rw [if_pos h2] at h
      cases h
    · rw [if_neg h2] at h
      by_cases h3 : "geom" ∉ t.cols
      · rw [if_pos h3] at h
        right
        exact ⟨(Option.some.inj h).symm, h1, h3⟩
      · rw [if_neg h3] at h
        left
        exact (Option.some.inj h).symm
  · rw [if_neg h1] at h
    left
    exact (Option.some.inj h).symm

/-- Helper for C10: the table a successful iteration produces is a fixed
point of the iteration. -/
theorem processOrbit_post (t u : OrbitTable) (h : processOrbit t = some u) :
    processOrbit u = some u := by
  rcases processOrbit_some_cases t u h with rfl | ⟨rfl, hcsv, hg⟩
  · exact h
  · obtain ⟨hlat, hlon⟩ := processOrbit_lat_lon t _ h hcsv
    unfold processOrbit
    rw [if_pos hcsv]
    rw [if_neg (by
      push_neg
      exact ⟨List.mem_append_left _ hlat, List.mem_append_left _ hlon⟩)]
    rw [if_neg (by
      push_neg
      exact List.mem_append_right _ (List.mem_singleton.mpr rfl))]

/-- Claim C10: `build_point_geometry` mutates an orbit table only when that
orbit's source file ends with `.csv` and the table has no `geom` column; a
second call (and a call on shapefile-sourced tables) leaves every table
unchanged — idempotence at the public interface; and it raises `ValueError`
iff a CSV-sourced orbit table lacks the configured latitude or longitude
column. -/
theorem build_point_geometry_spec (s : OrbitState) :
    ((buildPointGeometry s).1.ascending ≠ s.ascending →
        s.ascending.source_file.endsWith ".csv" = true ∧ "geom" ∉ s.ascending.cols) ∧
      ((buildPointGeometry s).1.descending ≠ s.descending →
        s.descending.source_file.endsWith ".csv" = true ∧ "geom" ∉ s.descending.cols) ∧
      (buildPointGeometry (buildPointGeometry s).1).1 = (buildPointGeometry s).1 ∧
      ((buildPointGeometry s).2 = true ↔
        (s.ascending.source_file.endsWith ".csv" = true ∧
            (s.ascending.lat_field ∉ s.ascending.cols ∨
              s.ascending.lon_field ∉ s.ascending.cols)) ∨
          (s.descending.source_file.endsWith ".csv" = true ∧
            (s.descending.lat_field ∉ s.descending.cols ∨
              s.descending.lon_field ∉ s.descending.cols))) := by
  rcases ha : processOrbit s.ascending with _ | a
  · have hbuild : buildPointGeometry s = (s, true) := by
      simp [buildPointGeometry, ha]
    rw [hbuild]
    refine ⟨fun h => absurd rfl h, fun h => absurd rfl h, by rw [hbuild], ?_⟩
    simpa using Or.inl ((processOrbit_none_iff s.ascending).mp ha)
  · rcases hb : processOrbit s.descending with _ | b
    · have hbuild : buildPointGeometry s = ({ s with ascending := a }, true) := by
        simp [buildPointGeometry, ha, hb]
      have ha2 : processOrbit a = some a := processOrbit_post _ _ ha
      have hbuild2 : buildPointGeometry { s with ascending := a } =
          ({ s with ascending := a }, true) := by
        simp [buildPointGeometry, ha2, hb]
      rw [hbuild]
      refine ⟨?_, fun h => absurd rfl h, by rw [hbuild2], ?_⟩
      · intro h
        rcases processOrbit_some_cases _ _ ha with heq | ⟨_, hcsv, hg⟩
        · exact absurd heq h
        · exact ⟨hcsv, hg⟩
      · simpa using Or.inr ((processOrbit_none_iff s.descending).mp hb)
    · have hbuild : buildPointGeometry s = (OrbitState.mk a b, false) := by
        simp [buildPointGeometry, ha, hb]
      have ha2 : processOrbit a = some a := processOrbit_post _ _ ha
      have hb2 : processOrbit b = some b := processOrbit_post _ _ hb
      have hbuild2 : buildPointGeometry (OrbitState.mk a b) = (OrbitState.mk a b, false) := by
        simp [buildPointGeometry, ha2, hb2]
      rw [hbuild]
      refine ⟨?_, ?_, by rw [hbuild2], ?_⟩
      · intro h
        rcases processOrbit_some_cases _ _ ha with heq | ⟨_, hcsv, hg⟩
        · exact absurd heq h
        · exact ⟨hcsv, hg⟩
      · intro h
        rcases processOrbit_some_cases _ _ hb with heq | ⟨_, hcsv, hg⟩
        · exact absurd heq h
        · exact ⟨hcsv, hg⟩
      · have hna : ¬ (s.ascending.source_file.endsWith ".csv" = true ∧
            (s.ascending.lat_field ∉ s.ascending.cols ∨
              s.ascending.lon_field ∉ s.ascending.cols)) := by
          rw [← processOrbit_none_iff]
          simp [ha]
        have hnb : ¬ (s.descending.source_file.endsWith ".csv" = true ∧
            (s.descending.lat_field ∉ s.descending.cols ∨
              s.descending.lon_field ∉ s.descending.cols)) := by
          rw [← processOrbit_none_iff]
          simp [hb]
        simp [hna, hnb]

/-- Helper for C2 and C3: the two-branch `CASE` of `process_axis` acts as
reverse-when-`axisRevCond`, identity otherwise. -/
theorem processAxisGeom_cases (l : List (ℝ × ℝ)) :
    (axisRevCond l → processAxisGeom l = l.reverse) ∧
      (¬ axisRevCond l → processAxisGeom l = l) := by
  unfold processAxisGeom axisRevCond
  constructor
  · intro h
    by_cases h1 : (stStartPoint l).2 > (lineCentroid l).2
    · rw [if_pos h1]
    · rcases h with h | h2
      · exact absurd h h1
      · rw [if_neg h1, if_pos h2]
  · intro h
    have h1 : ¬ (stStartPoint l).2 > (lineCentroid l).2 := fun hc => h (Or.inl hc)
    have h2 : ¬ ((stStartPoint l).2 = (lineCentroid l).2 ∧
        (stStartPoint l).1 > (lineCentroid l).1) := fun hc => h (Or.inr hc)
    rw [if_neg h1, if_neg h2]

/-- Claim C2: `process_axis` reverses an axis geometry if and only if the
start point's northing strictly exceeds the centroid's northing, or the
northings are equal and the start point's easting strictly exceeds the
centroid's easting; otherwise the geometry is left unchanged. -/
theorem process_axis_reverse_iff (l : List (ℝ × ℝ)) :
    (axisRevCond l → processAxisGeom l = l.reverse) ∧
      (¬ axisRevCond l → processAxisGeom l = l) :=
  processAxisGeom_cases l

/-- Helper for C3: a degenerate-free segment has positive length. -/
theorem segLen_pos (p q : ℝ × ℝ) (hne : p ≠ q) : 0 < segLen p q := by
  unfold segLen
  apply Real.sqrt_pos.mpr
  by_contra hc
  push_neg at hc
  have h1 : (q.1 - p.1) ^ 2 = 0 := by
    nlinarith [sq_nonneg (q.1 - p.1), sq_nonneg (q.2 - p.2)]
  have h2 : (q.2 - p.2) ^ 2 = 0 := by
    nlinarith [sq_nonneg (q.1 - p.1), sq_nonneg (q.2 - p.2)]
  have e1 : q.1 - p.1 = 0 := sq_eq_zero_iff.mp h1
  have e2 : q.2 - p.2 = 0 := sq_eq_zero_iff.mp h2
  exact hne (Prod.ext_iff.mpr ⟨by linarith, by linarith⟩)

/-- Helper for C3: for a two-vertex line the linestring centroid is the
midpoint of its endpoints. -/
theorem lineCentroid_pair (p q : ℝ × ℝ) (hne : p ≠ q) :
    lineCentroid [p, q] = ((p.1 + q.1) / 2, (p.2 + q.2) / 2) := by
  have hpos := segLen_pos p q hne
  unfold lineCentroid
  rw [show segsOf [p, q] = [(p, q)] from rfl]
  simp only [List.map_cons, List.map_nil, List.sum_cons, List.sum_nil, add_zero]
  rw [Prod.mk.injEq]
  exact ⟨mul_div_cancel_left₀ _ hpos.ne', mul_div_cancel_left₀ _ hpos.ne'⟩

/-- Helper for C3: on a two-vertex line the reversal condition compares the
two endpoints directly (south/west-most endpoint becomes the start). -/
theorem pairRevCond_iff (p q : ℝ × ℝ) (hne : p ≠ q) :
    axisRevCond [p, q] ↔ (q.2 < p.2 ∨ (p.2 = q.2 ∧ q.1 < p.1)) := by
  unfold axisRevCond
  rw [show stStartPoint [p, q] = p from rfl, lineCentroid_pair p q hne]
  constructor
  · rintro (h | ⟨he, hx⟩)
    · have h2 : p.2 > (p.2 + q.2) / 2 := h
      left
      linarith
    · have he2 : p.2 = (p.2 + q.2) / 2 := he
      have hx2 : p.1 > (p.1 + q.1) / 2 := hx
      right
      exact ⟨by linarith, by linarith⟩
  · rintro (h | ⟨he, hx⟩)
    · left
      show p.2 > (p.2 + q.2) / 2
      linarith
    · right
      constructor
      · show p.2 = (p.2 + q.2) / 2
        linarith
      · show p.1 > (p.1 + q.1) / 2
        linarith

/-- Claim C3 (amended): on two-vertex (straight-segment) axis lines the
canonicalization is idempotent — canon(canon [p, q]) = canon [p, q]. -/
theorem canon_idempotent_on_segments (p q : ℝ × ℝ) :
    processAxisGeom (processAxisGeom [p, q]) = processAxisGeom [p, q] := by
  by_cases hpq : p = q
  · subst hpq
    have hself : processAxisGeom [p, p] = [p, p] := by
      by_cases hA : axisRevCond [p, p]
      · exact (processAxisGeom_cases _).1 hA
      · exact (processAxisGeom_cases _).2 hA
    rw [hself, hself]
  · by_cases hA : axisRevCond [p, q]
    · have h1 : processAxisGeom [p, q] = [q, p] := (processAxisGeom_cases _).1 hA
      have hnA : ¬ axisRevCond [q, p] := by
        rw [pairRevCond_iff q p (Ne.symm hpq)]
        rcases (pairRevCond_iff p q hpq).mp hA with h | ⟨he, hx⟩
        · rintro (h2 | ⟨he2, hx2⟩)
          · linarith
          · linarith
        · rintro (h2 | ⟨he2, hx2⟩)
          · linarith
          · linarith
      have h2 : processAxisGeom [q, p] = [q, p] := (processAxisGeom_cases _).2 hnA
      rw [h1, h2]
    · have h1 : processAxisGeom [p, q] = [p, q] := (processAxisGeom_cases _).2 hA
      rw [h1, h1]

/-- Segment length of the first leg of the counterexample polyline. -/
theorem sqrt_sixteen : Real.sqrt (((0:ℝ) - 0) ^ 2 + ((0:ℝ) - 4) ^ 2) = 4 := by
  rw [show ((0:ℝ) - 0) ^ 2 + ((0:ℝ) - 4) ^ 2 = 4 ^ 2 by norm_num]
  exact Real.sqrt_sq (by norm_num)

/-- Segment length of the second leg of the counterexample polyline. -/
theorem sqrt_twentyfive : Real.sqrt (((3:ℝ) - 0) ^ 2 + ((4:ℝ) - 0) ^ 2) = 5 := by
  rw [show ((3:ℝ) - 0) ^ 2 + ((4:ℝ) - 0) ^ 2 = 5 ^ 2 by norm_num]
  exact Real.sqrt_sq (by norm_num)

/-- Segment length of the first leg of the reversed counterexample
polyline. -/
theorem sqrt_twentyfive2 : Real.sqrt (((0:ℝ) - 3) ^ 2 + ((0:ℝ) - 4) ^ 2) = 5 := by
  rw [show ((0:ℝ) - 3) ^ 2 + ((0:ℝ) - 4) ^ 2 = 5 ^ 2 by norm_num]
  exact Real.sqrt_sq (by norm_num)

/-- Segment length of the second leg of the reversed counterexample
polyline. -/
theorem sqrt_sixteen2 : Real.sqrt (((0:ℝ) - 0) ^ 2 + ((4:ℝ) - 0) ^ 2) = 4 := by
  rw [show ((0:ℝ) - 0) ^ 2 + ((4:ℝ) - 0) ^ 2 = 4 ^ 2 by norm_num]
  exact Real.sqrt_sq (by norm_num)

/-- Centroid of the V-shaped polyline (0,4)-(0,0)-(3,4): both endpoints lie
strictly north of it. -/
theorem vline_centroid :
    lineCentroid [((0:ℝ), (4:ℝ)), ((0:ℝ), (0:ℝ)), ((3:ℝ), (4:ℝ))] = (5 / 6, 2) := by
  unfold lineCentroid
  rw [show segsOf [((0:ℝ), (4:ℝ)), ((0:ℝ), (0:ℝ)), ((3:ℝ), (4:ℝ))] =
      [(((0:ℝ), (4:ℝ)), ((0:ℝ), (0:ℝ))), (((0:ℝ), (0:ℝ)), ((3:ℝ), (4:ℝ)))] from rfl]
  have e1 : segLen ((0:ℝ), (4:ℝ)) ((0:ℝ), (0:ℝ)) = 4 := sqrt_sixteen
  have e2 : segLen ((0:ℝ), (0:ℝ)) ((3:ℝ), (4:ℝ)) = 5 := sqrt_twentyfive
  simp only [List.map_cons, List.map_nil, List.sum_cons, List.sum_nil, add_zero, e1, e2]
  rw [Prod.mk.injEq]
  norm_num

/-- Centroid of the reversed V-shaped polyline. -/
theorem vline_centroid_rev :
    lineCentroid [((3:ℝ), (4:ℝ)), ((0:ℝ), (0:ℝ)), ((0:ℝ), (4:ℝ))] = (5 / 6, 2) := by
  unfold lineCentroid
  rw [show segsOf [((3:ℝ), (4:ℝ)), ((0:ℝ), (0:ℝ)), ((0:ℝ), (4:ℝ))] =
      [(((3:ℝ), (4:ℝ)), ((0:ℝ), (0:ℝ))), (((0:ℝ), (0:ℝ)), ((0:ℝ), (4:ℝ)))] from rfl]
  have e3 : segLen ((3:ℝ), (4:ℝ)) ((0:ℝ), (0:ℝ)) = 5 := sqrt_twentyfive2
  have e4 : segLen ((0:ℝ), (0:ℝ)) ((0:ℝ), (4:ℝ)) = 4 := sqrt_sixteen2
  simp only [List.map_cons, List.map_nil, List.sum_cons, List.sum_nil, add_zero, e3, e4]
  rw [Prod.mk.injEq]
  norm_num

/-- Claim C3 (counterexample): on the V-shaped polyline (0,4)-(0,0)-(3,4)
both endpoints are strictly north of the centroid (northing 2), so the
canonicalization reverses the line in both directions and applying it twice
returns the original line, not the canonicalized one. -/
theorem canon_not_idempotent_on_vline :
    processAxisGeom (processAxisGeom [((0:ℝ), (4:ℝ)), ((0:ℝ), (0:ℝ)), ((3:ℝ), (4:ℝ))]) ≠
      processAxisGeom [((0:ℝ), (4:ℝ)), ((0:ℝ), (0:ℝ)), ((3:ℝ), (4:ℝ))] := by
  have hA1 : axisRevCond [((0:ℝ), (4:ℝ)), ((0:ℝ), (0:ℝ)), ((3:ℝ), (4:ℝ))] := by
    left
    rw [show stStartPoint [((0:ℝ), (4:ℝ)), ((0:ℝ), (0:ℝ)), ((3:ℝ), (4:ℝ))] =
        ((0:ℝ), (4:ℝ)) from rfl, vline_centroid]
    norm_num
  have hA2 : axisRevCond [((3:ℝ), (4:ℝ)), ((0:ℝ), (0:ℝ)), ((0:ℝ), (4:ℝ))] := by
    left
    rw [show stStartPoint [((3:ℝ), (4:ℝ)), ((0:ℝ), (0:ℝ)), ((0:ℝ), (4:ℝ))] =
        ((3:ℝ), (4:ℝ)) from rfl, vline_centroid_rev]
    norm_num
  have h1 : processAxisGeom [((0:ℝ), (4:ℝ)), ((0:ℝ), (0:ℝ)), ((3:ℝ), (4:ℝ))] =
      [((3:ℝ), (4:ℝ)), ((0:ℝ), (0:ℝ)), ((0:ℝ), (4:ℝ))] :=
    (processAxisGeom_cases _).1 hA1
  have h2 : processAxisGeom [((3:ℝ), (4:ℝ)), ((0:ℝ), (0:ℝ)), ((0:ℝ), (4:ℝ))] =
      [((0:ℝ), (4:ℝ)), ((0:ℝ), (0:ℝ)), ((3:ℝ), (4:ℝ))] :=
    (processAxisGeom_cases _).1 hA2
  rw [h1, h2]
  intro hcon
  simp only [List.cons.injEq, Prod.mk.injEq] at hcon
  norm_num at hcon

/-- Helper for C4: a value already strictly inside `(-y, y)` is its own
`fmod` remainder. -/
theorem truncR_self_small (x y : ℝ) (hy : 0 < y) (hlo : -y < x) (hhi : x < y) :
    fmodR x y = x := by
  unfold fmodR truncR
  by_cases hx : 0 ≤ x / y
  · rw [if_pos hx]
    have h1 : ⌊x / y⌋ = 0 := by
      rw [Int.floor_eq_zero_iff]
      exact ⟨hx, by rwa [div_lt_one hy]⟩
    rw [h1]
    push_cast
    ring
  · rw [if_neg hx]
    have h1 : ⌈x / y⌉ = 0 := by
      rw [Int.ceil_eq_zero_iff]
      constructor
      · rw [lt_div_iff₀ hy]
        linarith
      · exact (lt_of_not_le hx).le
    rw [h1]
    push_cast
    ring

/-- Helper for C4: `fmod` of a nonnegative value by a positive modulus lands
in `[0, y)`. -/
theorem fmodR_bounds (x y : ℝ) (hx : 0 ≤ x) (hy : 0 < y) :
    0 ≤ fmodR x y ∧ fmodR x y < y := by
  unfold fmodR truncR
  rw [if_pos (div_nonneg hx hy.le)]
  constructor
  · have h1 : (⌊x / y⌋ : ℝ) ≤ x / y := Int.floor_le _
    have h2 : y * (⌊x / y⌋ : ℝ) ≤ y * (x / y) := by nlinarith
    have h3 : y * (x / y) = x := by field_simp
    linarith
  · have h1 : x / y < (⌊x / y⌋ : ℝ) + 1 := Int.lt_floor_add_one _
    have h2 : y * (x / y) < y * ((⌊x / y⌋ : ℝ) + 1) := by nlinarith
    have h3 : y * (x / y) = x := by field_simp
    nlinarith

/-- Claim C4: the derived azimuth always lies in `[0, 360)`, the
orientation is `NS` exactly for azimuth in
`[0,45] ∪ [135,225] ∪ [315,360]` (and `EW` otherwise), and in particular
azimuth 45.0 yields `NS` while 45.0001 yields `EW`. -/
theorem azimuth_orientation_spec :
    (∀ dy dx : ℝ, 0 ≤ azimuthOf dy dx ∧ azimuthOf dy dx < 360) ∧
      (∀ az : ℝ, 0 ≤ az → az < 360 →
        (orientationOf az = "NS" ↔
          (0 ≤ az ∧ az ≤ 45) ∨ (135 ≤ az ∧ az ≤ 225) ∨ (315 ≤ az ∧ az ≤ 360))) ∧
      orientationOf 45 = "NS" ∧ orientationOf 45.0001 = "EW" := by
  refine ⟨?_, ?_, ?_, ?_⟩
  · intro dy dx
    have hpi := Real.pi_pos
    have h1 : -Real.pi < atan2R dy dx := Complex.neg_pi_lt_arg _
    have h2 : atan2R dy dx ≤ Real.pi := Complex.arg_le_pi _
    have hin : fmodR (atan2R dy dx) (2 * Real.pi) = atan2R dy dx :=
      truncR_self_small _ _ (by linarith) (by linarith) (by linarith)
    unfold azimuthOf
    rw [hin]
    have hD : (270:ℝ) ≤ degreesR (2 * Real.pi + Real.pi / 2 - atan2R dy dx) := by
      unfold degreesR
      rw [le_div_iff₀ hpi]
      nlinarith
    exact fmodR_bounds (degreesR (2 * Real.pi + Real.pi / 2 - atan2R dy dx)) 360
      (by linarith) (by norm_num)
  · intro az h0 h360
    unfold orientationOf
    by_cases hc : (az ≥ 0 ∧ az ≤ 45) ∨ (az ≥ 315 ∧ az ≤ 360) ∨ (az ≥ 135 ∧ az ≤ 225)
    · rw [if_pos hc]
      constructor
      · intro _
        tauto
      · intro _
        rfl
    · rw [if_neg hc]
      constructor
      · intro he
        exact absurd he (by decide)
      · intro hr
        exact absurd (by tauto) hc
  · unfold orientationOf
    rw [if_pos (by norm_num)]
  · unfold orientationOf
    rw [if_neg (by norm_num)]
